import Mathlib

/-!
Verification of the SuperflexPy CommonClass module
(src/superflexpy/utils/common_class.py).

The Python class CommonClass is embedded shallowly: a CommonClass value
holds the fields the methods read (id, content_pointer, content, dt);
each Python method becomes a Lean function returning Except PyErr,
where the error constructors model the Python exceptions that the
methods may raise or catch.  Children of a CommonClass are modelled by
the Element record, following the child capability contract of the
specification (Elements are external collaborators, not part of the
repository source): a missing capability raises AttributeError and an
unknown parameter or state name raises KeyError.
-/

/-- The Python exceptions that the embedded code raises or catches. -/
inductive PyErr where
  | attributeError
  | keyError
  | valueError
  | typeError
  | indexError
  | unboundLocalError
  deriving DecidableEq, Repr

/-- Decidable equality of Except values, used to evaluate the embedded
functions on concrete inputs. -/
instance {E A : Type} [DecidableEq E] [DecidableEq A] : DecidableEq (Except E A) :=
  fun x y =>
    match x, y with
    | .error a, .error b =>
        if h : a = b then isTrue (congrArg Except.error h)
        else isFalse (fun he => h (Except.error.inj he))
    | .error _, .ok _ => isFalse (fun he => Except.noConfusion he)
    | .ok _, .error _ => isFalse (fun he => Except.noConfusion he)
    | .ok a, .ok b =>
        if h : a = b then isTrue (congrArg Except.ok h)
        else isFalse (fun he => h (Except.ok.inj he))

variable {V : Type}

/-- Lookup in a Python-style dictionary modelled as an association list:
the first binding of the key wins. -/
def lookupKey (k : String) : List (String × V) → Option V
  | [] => none
  | (k2, v) :: rest => if k2 = k then some v else lookupKey k rest

/-- Python dictionary assignment d[k] = v: replace the first binding of k
if present, otherwise append the new binding. -/
def insertKey (k : String) (v : V) : List (String × V) → List (String × V)
  | [] => [(k, v)]
  | (k2, v2) :: rest =>
      if k2 = k then (k2, v) :: rest else (k2, v2) :: insertKey k v rest

/-- Helper for splitName: accumulates the current token in reverse. -/
def splitTokensAux : List Char → List Char → List String
  | [], acc => [String.mk acc.reverse]
  | c :: cs, acc =>
      if c = '_' then String.mk acc.reverse :: splitTokensAux cs []
      else splitTokensAux cs (c :: acc)

/-- Embeds the Python expression name.split(String.mk [Char.ofNat 95]),
splitting a string at underscores; like the Python method it always
returns a nonempty list. -/
def splitName (s : String) : List String :=
  splitTokensAux s.data []

/-- The child capability record.  Modelled from the spec: an Element is a
leaf unit exposing, polymorphically, a subset of get_parameters,
set_parameters, get_states, set_states, reset_states, set_timestep;
absence of a method is a detectable distinct outcome (AttributeError in
the Python embedding), and a name that the Element does not own raises
KeyError. -/
structure Element (V : Type) where
  hasGetParameters : Bool
  hasSetParameters : Bool
  hasGetStates : Bool
  hasSetStates : Bool
  hasResetStates : Bool
  hasSetTimestep : Bool
  params : List (String × V)
  states : List (String × V)
  initStates : List (String × Option V)
  dt : Option V
  deriving DecidableEq

/-- Modelled from the spec: selecting a list of requested names from a
mapping of an Element; any name that is not a key raises KeyError. -/
def elemSelect (m : List (String × V)) : List String → Except PyErr (List (String × V))
  | [] => .ok []
  | n :: rest =>
      match lookupKey n m with
      | none => .error .keyError
      | some v => (elemSelect m rest).map (fun r => (n, v) :: r)

/-- Modelled from the spec: Element.get_parameters returns all parameters
when no names are given, the selected names otherwise; AttributeError
when the Element lacks the capability. -/
def Element.get_parameters (el : Element V) (names : Option (List String)) :
    Except PyErr (List (String × V)) :=
  if el.hasGetParameters then
    match names with
    | none => .ok el.params
    | some ns => elemSelect el.params ns
  else .error .attributeError

/-- Modelled from the spec: writing a batch of key and value pairs into a
mapping of an Element; a key that is not already present raises KeyError. -/
def setVals (m : List (String × V)) : List (String × V) → Except PyErr (List (String × V))
  | [] => .ok m
  | (k, v) :: rest =>
      match lookupKey k m with
      | none => .error .keyError
      | some _ => setVals (insertKey k v m) rest

/-- Modelled from the spec: Element.set_parameters updates the named
parameters; AttributeError when the capability is missing, KeyError when
a name is not owned. -/
def Element.set_parameters (el : Element V) (vals : List (String × V)) :
    Except PyErr (Element V) :=
  if el.hasSetParameters then
    (setVals el.params vals).map (fun ps => { el with params := ps })
  else .error .attributeError

/-- Modelled from the spec: Element.get_states, analogous to
Element.get_parameters. -/
def Element.get_states (el : Element V) (names : Option (List String)) :
    Except PyErr (List (String × V)) :=
  if el.hasGetStates then
    match names with
    | none => .ok el.states
    | some ns => elemSelect el.states ns
  else .error .attributeError

/-- Modelled from the spec: Element.set_states, analogous to
Element.set_parameters. -/
def Element.set_states (el : Element V) (vals : List (String × V)) :
    Except PyErr (Element V) :=
  if el.hasSetStates then
    (setVals el.states vals).map (fun ss => { el with states := ss })
  else .error .attributeError

/-- Modelled from the spec: overlay of the initial state values onto the
current states; a state initialised as None is not reset. -/
def applyInit : List (String × Option V) → List (String × V) → List (String × V)
  | [], st => st
  | (_, none) :: rest, st => applyInit rest st
  | (k, some v) :: rest, st => applyInit rest (insertKey k v st)

/-- Modelled from the spec: Element.reset_states restores the states given
at initialisation, skipping the ones initialised as None. -/
def Element.reset_states (el : Element V) : Except PyErr (Element V) :=
  if el.hasResetStates then .ok { el with states := applyInit el.initStates el.states }
  else .error .attributeError

/-- Modelled from the spec: Element.set_timestep records the timestep;
AttributeError when the capability is missing, otherwise it always
succeeds. -/
def Element.set_timestep (el : Element V) (d : V) : Except PyErr (Element V) :=
  if el.hasSetTimestep then .ok { el with dt := some d }
  else .error .attributeError

/-- The state of a CommonClass instance (common_class.py): id is the
identifier (none models the Model case where reading self.id raises
AttributeError), content_pointer embeds the ordered dictionary
_content_pointer, content embeds the list _content, and dt embeds _dt
(none while the attribute is unset). -/
structure CommonClass (V : Type) where
  id : Option String
  content_pointer : List (String × Nat)
  content : List (Element V)
  dt : Option V
  deriving DecidableEq

/-- Embeds the Python indexing expression used for _content: a position
outside the list raises IndexError. -/
def getItem (content : List (Element V)) (pos : Nat) : Except PyErr (Element V) :=
  match content[pos]? with
  | some el => .ok el
  | none => .error .indexError

/-- Embeds lines 107 to 110 of common_class.py: the index of the token
following the identifier; when the identifier is absent the Python code
sets ind to minus one, so ind plus one is zero. -/
def candidatePos (tokens : List String) (class_id : String) : Nat :=
  if class_id ∈ tokens then tokens.indexOf class_id + 1 else 0

/-- Embeds the loop of lines 115 to 120 of common_class.py: iterate over
the keys of _content_pointer in insertion order and return the position
of the first key occurring among the tokens. -/
def rootScan (cp : List (String × Nat)) (tokens : List String) : Option Nat :=
  match cp with
  | [] => none
  | (c, pos) :: rest => if c ∈ tokens then some pos else rootScan rest tokens

/-- Embeds _find_content_from_name (common_class.py lines 96 to 122).
With an identifier, the token after the identifier (the first token when
the identifier is absent from the name) is looked up in
_content_pointer; a missing key raises KeyError and an out of range
token index raises IndexError.  Without an identifier the keys of
_content_pointer are scanned; with no keys at all the Python local
variable position is never bound, raising UnboundLocalError at the
return statement. -/
def find_content_from_name (self : CommonClass V) (name : String) :
    Except PyErr (Option Nat) :=
  match self.id with
  | some class_id =>
      match (splitName name)[candidatePos (splitName name) class_id]? with
      | none => .error .indexError
      | some tok =>
          match lookupKey tok self.content_pointer with
          | some pos => .ok (some pos)
          | none => .error .keyError
  | none =>
      match self.content_pointer with
      | [] => .error .unboundLocalError
      | _ :: _ => .ok (rootScan self.content_pointer (splitName name))

/-- Embeds the Python merge {**a, **b}: the bindings of b override the
bindings of a. -/
def dictUnion (a b : List (String × V)) : List (String × V) :=
  b.foldl (fun d kv => insertKey kv.1 kv.2 d) a

/-- Embeds the keyword merge of lines 63 to 65 of common_class.py: a key
already present is never overwritten. -/
def mergeFirstSeen (params contPars : List (String × V)) : List (String × V) :=
  contPars.foldl
    (fun d kv => if (lookupKey kv.1 d).isSome then d else insertKey kv.1 kv.2 d)
    params

/-- Embeds the no-names loop of get_parameters (lines 56 to 65): children
lacking get_parameters raise AttributeError and are skipped; mappings
are merged first-seen-wins. -/
def getP_noname (content : List (Element V)) :
    List (String × Nat) → List (String × V) → Except PyErr (List (String × V))
  | [], params => .ok params
  | (_, pos) :: rest, params =>
      match getItem content pos with
      | .error e => .error e
      | .ok el =>
          match el.get_parameters none with
          | .error .attributeError => getP_noname content rest params
          | .error e => .error e
          | .ok contPars => getP_noname content rest (mergeFirstSeen params contPars)

/-- Embeds the probing loop of get_parameters (lines 70 to 76): probe each
child with the single name, stop at the first success, skip
AttributeError and KeyError, propagate anything else; ok none models
the loop running out without binding cont_pars. -/
def probeGetP (content : List (Element V)) (n : String) :
    List (String × Nat) → Except PyErr (Option (List (String × V)))
  | [] => .ok none
  | (_, pos) :: rest =>
      match getItem content pos with
      | .error e => .error e
      | .ok el =>
          match el.get_parameters (some [n]) with
          | .ok res => .ok (some res)
          | .error .attributeError => probeGetP content n rest
          | .error .keyError => probeGetP content n rest
          | .error e => .error e

/-- Embeds the named loop of get_parameters (lines 67 to 80).  The third
argument carries the binding of the Python local cont_pars across name
iterations: when probing exhausts without success the previous binding
is merged again (the stale reuse present in the source) and with no
previous binding the merge raises UnboundLocalError. -/
def getP_go (self : CommonClass V) :
    List String → List (String × V) → Option (List (String × V)) →
    Except PyErr (List (String × V))
  | [], params, _ => .ok params
  | n :: rest, params, contPars =>
      match find_content_from_name self n with
      | .error e => .error e
      | .ok (some pos) =>
          match getItem self.content pos with
          | .error e => .error e
          | .ok el =>
              match el.get_parameters (some [n]) with
              | .error e => .error e
              | .ok res => getP_go self rest (dictUnion params res) (some res)
      | .ok none =>
          match probeGetP self.content n self.content_pointer with
          | .error e => .error e
          | .ok (some res) => getP_go self rest (dictUnion params res) (some res)
          | .ok none =>
              match contPars with
              | some stale => getP_go self rest (dictUnion params stale) (some stale)
              | none => .error .unboundLocalError

/-- Embeds get_parameters (common_class.py lines 37 to 82). -/
def get_parameters (self : CommonClass V) (names : Option (List String)) :
    Except PyErr (List (String × V)) :=
  match names with
  | none => getP_noname self.content self.content_pointer []
  | some ns => getP_go self ns [] none

/-- Embeds the probing loop of set_parameters (lines 140 to 146): only
KeyError and ValueError are caught; in particular AttributeError from a
child lacking set_parameters propagates.  Exhausting the loop leaves the
contents unchanged (the silent loop exhaustion of the source). -/
def probeSetP (content : List (Element V)) (p : String) (v : V) :
    List (String × Nat) → Except PyErr (List (Element V))
  | [] => .ok content
  | (_, pos) :: rest =>
      match getItem content pos with
      | .error e => .error e
      | .ok el =>
          match el.set_parameters [(p, v)] with
          | .ok el2 => .ok (content.set pos el2)
          | .error .keyError => probeSetP content p v rest
          | .error .valueError => probeSetP content p v rest
          | .error e => .error e

/-- Embeds the loop of set_parameters (lines 136 to 148) over the keys of
the given dictionary. -/
def setP_go : CommonClass V → List (String × V) → Except PyErr (CommonClass V)
  | self, [] => .ok self
  | self, (p, v) :: rest =>
      match find_content_from_name self p with
      | .error e => .error e
      | .ok none =>
          match probeSetP self.content p v self.content_pointer with
          | .error e => .error e
          | .ok c2 => setP_go { self with content := c2 } rest
      | .ok (some pos) =>
          match getItem self.content pos with
          | .error e => .error e
          | .ok el =>
              match el.set_parameters [(p, v)] with
              | .error e => .error e
              | .ok el2 => setP_go { self with content := self.content.set pos el2 } rest

/-- Embeds set_parameters (common_class.py lines 124 to 148). -/
def set_parameters (self : CommonClass V) (vals : List (String × V)) :
    Except PyErr (CommonClass V) :=
  setP_go self vals

/-- Embeds the no-names loop of get_states (lines 169 to 178), the states
twin of getP_noname. -/
def getS_noname (content : List (Element V)) :
    List (String × Nat) → List (String × V) → Except PyErr (List (String × V))
  | [], states => .ok states
  | (_, pos) :: rest, states =>
      match getItem content pos with
      | .error e => .error e
      | .ok el =>
          match el.get_states none with
          | .error .attributeError => getS_noname content rest states
          | .error e => .error e
          | .ok contSt => getS_noname content rest (mergeFirstSeen states contSt)

/-- Embeds the probing loop of get_states (lines 183 to 189), the states
twin of probeGetP. -/
def probeGetS (content : List (Element V)) (n : String) :
    List (String × Nat) → Except PyErr (Option (List (String × V)))
  | [] => .ok none
  | (_, pos) :: rest =>
      match getItem content pos with
      | .error e => .error e
      | .ok el =>
          match el.get_states (some [n]) with
          | .ok res => .ok (some res)
          | .error .attributeError => probeGetS content n rest
          | .error .keyError => probeGetS content n rest
          | .error e => .error e

/-- Embeds the named loop of get_states (lines 180 to 193), the states
twin of getP_go. -/
def getS_go (self : CommonClass V) :
    List String → List (String × V) → Option (List (String × V)) →
    Except PyErr (List (String × V))
  | [], states, _ => .ok states
  | n :: rest, states, contSt =>
      match find_content_from_name self n with
      | .error e => .error e
      | .ok (some pos) =>
          match getItem self.content pos with
          | .error e => .error e
          | .ok el =>
              match el.get_states (some [n]) with
              | .error e => .error e
              | .ok res => getS_go self rest (dictUnion states res) (some res)
      | .ok none =>
          match probeGetS self.content n self.content_pointer with
          | .error e => .error e
          | .ok (some res) => getS_go self rest (dictUnion states res) (some res)
          | .ok none =>
              match contSt with
              | some stale => getS_go self rest (dictUnion states stale) (some stale)
              | none => .error .unboundLocalError

/-- Embeds get_states (common_class.py lines 150 to 195). -/
def get_states (self : CommonClass V) (names : Option (List String)) :
    Except PyErr (List (String × V)) :=
  match names with
  | none => getS_noname self.content self.content_pointer []
  | some ns => getS_go self ns [] none

/-- Embeds the probing loop of set_states (lines 225 to 231), the states
twin of probeSetP: only KeyError and ValueError are caught. -/
def probeSetS (content : List (Element V)) (s : String) (v : V) :
    List (String × Nat) → Except PyErr (List (Element V))
  | [] => .ok content
  | (_, pos) :: rest =>
      match getItem content pos with
      | .error e => .error e
      | .ok el =>
          match el.set_states [(s, v)] with
          | .ok el2 => .ok (content.set pos el2)
          | .error .keyError => probeSetS content s v rest
          | .error .valueError => probeSetS content s v rest
          | .error e => .error e

/-- Embeds the loop of set_states (lines 221 to 233). -/
def setS_go : CommonClass V → List (String × V) → Except PyErr (CommonClass V)
  | self, [] => .ok self
  | self, (s, v) :: rest =>
      match find_content_from_name self s with
      | .error e => .error e
      | .ok none =>
          match probeSetS self.content s v self.content_pointer with
          | .error e => .error e
          | .ok c2 => setS_go { self with content := c2 } rest
      | .ok (some pos) =>
          match getItem self.content pos with
          | .error e => .error e
          | .ok el =>
              match el.set_states [(s, v)] with
              | .error e => .error e
              | .ok el2 => setS_go { self with content := self.content.set pos el2 } rest

/-- Embeds set_states (common_class.py lines 209 to 233). -/
def set_states (self : CommonClass V) (vals : List (String × V)) :
    Except PyErr (CommonClass V) :=
  setS_go self vals

/-- The argument of reset_states: Python accepts None, a bare string, or a
list of strings. -/
inductive ResetArg where
  | passNone
  | str (s : String)
  | list (l : List String)

/-- Embeds lines 254 to 255 of common_class.py: a bare string id is
coerced to a one element list. -/
def coerceId : ResetArg → ResetArg
  | .str s => .list [s]
  | a => a

/-- Embeds the no-ids loop of reset_states (lines 247 to 252): children
lacking reset_states raise AttributeError and are skipped. -/
def resetLoop_noId (content : List (Element V)) :
    List (String × Nat) → Except PyErr (List (Element V))
  | [] => .ok content
  | (_, pos) :: rest =>
      match getItem content pos with
      | .error e => .error e
      | .ok el =>
          match el.reset_states with
          | .error .attributeError => resetLoop_noId content rest
          | .error e => .error e
          | .ok el2 => resetLoop_noId (content.set pos el2) rest

/-- Embeds the ids loop of reset_states (lines 256 to 260): resolution
errors propagate, an unresolved id (position None) makes the list
indexing raise TypeError, and the reset call on the resolved child is
not guarded by any try. -/
def resetLoop_ids : CommonClass V → List String → Except PyErr (CommonClass V)
  | self, [] => .ok self
  | self, i :: rest =>
      match find_content_from_name self i with
      | .error e => .error e
      | .ok none => .error .typeError
      | .ok (some pos) =>
          match getItem self.content pos with
          | .error e => .error e
          | .ok el =>
              match el.reset_states with
              | .error e => .error e
              | .ok el2 => resetLoop_ids { self with content := self.content.set pos el2 } rest

/-- Embeds reset_states (common_class.py lines 235 to 260). -/
def reset_states (self : CommonClass V) (arg : ResetArg) : Except PyErr (CommonClass V) :=
  match coerceId arg with
  | .passNone =>
      (resetLoop_noId self.content self.content_pointer).map
        (fun c => { self with content := c })
  | .str s => resetLoop_ids self [s]
  | .list l => resetLoop_ids self l

/-- Embeds get_timestep (common_class.py lines 262 to 271): reading _dt
before it is ever assigned raises AttributeError. -/
def get_timestep (self : CommonClass V) : Except PyErr V :=
  match self.dt with
  | some d => .ok d
  | none => .error .attributeError

/-- Embeds the forwarding loop of set_timestep (lines 285 to 291):
children lacking set_timestep raise AttributeError and are skipped. -/
def setTimestepLoop (d : V) (content : List (Element V)) :
    List (String × Nat) → Except PyErr (List (Element V))
  | [] => .ok content
  | (_, pos) :: rest =>
      match getItem content pos with
      | .error e => .error e
      | .ok el =>
          match el.set_timestep d with
          | .ok el2 => setTimestepLoop d (content.set pos el2) rest
          | .error .attributeError => setTimestepLoop d content rest
          | .error e => .error e

/-- Embeds set_timestep (common_class.py lines 273 to 291): assign _dt,
then forward to every child that supports the call. -/
def set_timestep (self : CommonClass V) (d : V) : Except PyErr (CommonClass V) :=
  (setTimestepLoop d self.content self.content_pointer).map
    (fun c => { self with dt := some d, content := c })

/-- The structural invariant of the specification: every position stored
in child_index is a valid position into the children list. -/
def validPointers (self : CommonClass V) : Prop :=
  ∀ q ∈ self.content_pointer, q.2 < self.content.length

instance (self : CommonClass V) : Decidable (validPointers self) :=
  inferInstanceAs (Decidable (∀ q ∈ self.content_pointer, q.2 < self.content.length))

/-- Modelled from the spec: the value held, for a given key, by the first
child in child_index order that supports reading parameters and owns the
key; none when no child owns it. -/
def firstOwnedParam (content : List (Element V)) (k : String) :
    List (String × Nat) → Option V
  | [] => none
  | (_, pos) :: rest =>
      match content[pos]? with
      | none => none
      | some el =>
          if el.hasGetParameters then
            match lookupKey k el.params with
            | some v => some v
            | none => firstOwnedParam content k rest
          else firstOwnedParam content k rest

/-- Modelled from the spec: the states twin of firstOwnedParam. -/
def firstOwnedState (content : List (Element V)) (k : String) :
    List (String × Nat) → Option V
  | [] => none
  | (_, pos) :: rest =>
      match content[pos]? with
      | none => none
      | some el =>
          if el.hasGetStates then
            match lookupKey k el.states with
            | some v => some v
            | none => firstOwnedState content k rest
          else firstOwnedState content k rest

/-- Proof-side description of one forwarding step of set_timestep on the
children list. -/
def applyTs (d : V) (cont : List (Element V)) (pos : Nat) : List (Element V) :=
  match cont[pos]? with
  | none => cont
  | some el =>
      if el.hasSetTimestep then cont.set pos { el with dt := some d } else cont

/-- A child position owning the parameter key k: the element there
supports reading and writing parameters and has k among its parameter
keys. -/
def OwnerAt (self : CommonClass V) (k : String) (pos : Nat) : Prop :=
  ∃ el, self.content[pos]? = some el ∧ el.hasSetParameters = true ∧
    el.hasGetParameters = true ∧ (lookupKey k el.params).isSome = true

/-- The round trip precondition: either the name resolver finds the owner
directly, or it is unresolved and the probing loops reach the owner, the
children probed before it all supporting set_parameters while not owning
the key. -/
def ResolvesToOwner (self : CommonClass V) (k : String) : Prop :=
  (∃ pos, find_content_from_name self k = .ok (some pos) ∧ OwnerAt self k pos) ∨
  (find_content_from_name self k = .ok none ∧
    ∃ pre c pos post, self.content_pointer = pre ++ (c, pos) :: post ∧
      OwnerAt self k pos ∧
      ∀ q ∈ pre, ∃ elq, self.content[q.2]? = some elq ∧
        elq.hasSetParameters = true ∧ lookupKey k elq.params = none)

/-- A sample fully capable leaf child. -/
def elemFull (ps ss : List (String × Nat)) : Element Nat :=
  { hasGetParameters := true, hasSetParameters := true, hasGetStates := true,
    hasSetStates := true, hasResetStates := true, hasSetTimestep := true,
    params := ps, states := ss, initStates := [], dt := none }

/-- A sample leaf child lacking the writing capabilities. -/
def elemNoSet (ps ss : List (String × Nat)) : Element Nat :=
  { hasGetParameters := true, hasSetParameters := false, hasGetStates := true,
    hasSetStates := false, hasResetStates := true, hasSetTimestep := false,
    params := ps, states := ss, initStates := [], dt := none }

/-- A sample Container with an identifier. -/
def sampleIdH : CommonClass Nat :=
  { id := some "H", content_pointer := [("a", 0)],
    content := [elemFull [("H_a_p", 1)] [("H_a_s", 2)]], dt := none }

/-- A sample root Container with two children. -/
def sampleRootTwo : CommonClass Nat :=
  { id := none, content_pointer := [("b", 1), ("a", 0)],
    content := [elemFull [("a_p", 1)] [("a_s", 3)],
                elemFull [("b_p", 2)] [("b_s", 4)]], dt := none }

/-- A sample root Container with one child owning the bare names p and s. -/
def sampleRootOwn : CommonClass Nat :=
  { id := none, content_pointer := [("a", 0)],
    content := [elemFull [("p", 5), ("q", 6)] [("s", 7), ("t", 8)]], dt := none }

/-- A sample root Container whose only child lacks the writing
capabilities. -/
def sampleRootNoSet : CommonClass Nat :=
  { id := none, content_pointer := [("a", 0)],
    content := [elemNoSet [("p", 5)] [("s", 7)]], dt := none }

/-- A sample root Container with two children exposing the same key x. -/
def sampleRootDup : CommonClass Nat :=
  { id := none, content_pointer := [("a", 0), ("b", 1)],
    content := [elemFull [("x", 1)] [], elemFull [("x", 2)] []], dt := none }

/-- A sample root Container whose child owns the keys p and q both as
parameters and as states. -/
def sampleRootBoth : CommonClass Nat :=
  { id := none, content_pointer := [("a", 0)],
    content := [elemFull [("p", 5), ("q", 6)] [("p", 50), ("q", 60)]],
    dt := none }

/-- A sample root Container with one child supporting set_timestep and one
lacking it. -/
def sampleMixedTs : CommonClass Nat :=
  { id := none, content_pointer := [("a", 0), ("b", 1)],
    content := [elemFull [("p", 5)] [], elemNoSet [("r", 6)] []], dt := none }

theorem lookupKey_insertKey_self (k : String) (v : V) (d : List (String × V)) :
    lookupKey k (insertKey k v d) = some v := by
  induction d with
  | nil => simp [insertKey, lookupKey]
  | cons kv rest ih =>
      obtain ⟨k2, v2⟩ := kv
      by_cases h : k2 = k
      · simp [insertKey, lookupKey, h]
      · simp [insertKey, lookupKey, h, ih]

theorem lookupKey_insertKey_ne (k k2 : String) (v : V) (d : List (String × V))
    (h : k2 ≠ k) : lookupKey k (insertKey k2 v d) = lookupKey k d := by
  induction d with
  | nil => simp [insertKey, lookupKey, h]
  | cons kv rest ih =>
      obtain ⟨k3, v3⟩ := kv
      by_cases h2 : k3 = k2
      · subst h2
        simp [insertKey, lookupKey, h]
      · have h4 : k ≠ k2 := fun hh => h hh.symm
        by_cases h3 : k3 = k
        · simp [insertKey, lookupKey, h2, h3, h4]
        · simp [insertKey, lookupKey, h2, h3, ih]

theorem lookupKey_some_mem_snd {W : Type} (k : String) (l : List (String × W))
    (v : W) (h : lookupKey k l = some v) : v ∈ l.map Prod.snd := by
  induction l with
  | nil => simp [lookupKey] at h
  | cons kv rest ih =>
      obtain ⟨k2, v2⟩ := kv
      by_cases h2 : k2 = k
      · simp [lookupKey, h2] at h
        simp [h]
      · simp [lookupKey, h2] at h
        simp [ih h]

theorem rootScan_some_mem (cp : List (String × Nat)) (tokens : List String)
    (p : Nat) (h : rootScan cp tokens = some p) : p ∈ cp.map Prod.snd := by
  induction cp with
  | nil => simp [rootScan] at h
  | cons q rest ih =>
      obtain ⟨c, pos⟩ := q
      by_cases hc : c ∈ tokens
      · simp [rootScan, hc] at h
        simp [h]
      · simp [rootScan, hc] at h
        simp [ih h]

theorem rootScan_eq_find (cp : List (String × Nat)) (tokens : List String) :
    rootScan cp tokens =
      (cp.find? (fun q => decide (q.1 ∈ tokens))).map Prod.snd := by
  induction cp with
  | nil => simp [rootScan]
  | cons q rest ih =>
      obtain ⟨c, pos⟩ := q
      by_cases hc : c ∈ tokens
      · rw [rootScan, List.find?_cons_of_pos _ (by simpa using hc)]
        simp [hc]
      · rw [rootScan, List.find?_cons_of_neg _ (by simpa using hc)]
        simp [hc, ih]

/-- C1: name resolution is a total function into position, UNRESOLVED or a
raised Python error.  Any returned position is a value of child_index;
UNRESOLVED arises only for a root Container; the only raised errors are
KeyError, IndexError and UnboundLocalError; and, correcting the claim,
when the identifier does not occur among the tokens the first token is
taken as the candidate, and a candidate token that is not a key of
child_index raises KeyError instead of returning UNRESOLVED. -/
theorem C1_resolution_outcomes (self : CommonClass V) (name : String) :
    (∀ p, find_content_from_name self name = .ok (some p) →
        p ∈ self.content_pointer.map Prod.snd) ∧
    (find_content_from_name self name = .ok none → self.id = none) ∧
    (∀ e, find_content_from_name self name = .error e →
        e = .keyError ∨ e = .indexError ∨ e = .unboundLocalError) ∧
    (∀ cid t ts, self.id = some cid → splitName name = t :: ts →
        cid ∉ t :: ts → lookupKey t self.content_pointer = none →
        find_content_from_name self name = .error .keyError) := by
  refine ⟨?_, ?_, ?_, ?_⟩
  · intro p h
    cases hid : self.id with
    | some cid =>
        simp only [find_content_from_name, hid] at h
        cases htok : ((splitName name)[candidatePos (splitName name) cid]?) with
        | none => simp [htok] at h
        | some tok =>
            simp only [htok] at h
            cases hlk : lookupKey tok self.content_pointer with
            | none => simp [hlk] at h
            | some pos =>
                simp only [hlk] at h
                have hp : pos = p := by simpa using h
                exact lookupKey_some_mem_snd _ _ _ (hp ▸ hlk)
    | none =>
        simp only [find_content_from_name, hid] at h
        cases hcp : self.content_pointer with
        | nil => simp [hcp] at h
        | cons q rest =>
            simp only [hcp] at h
            exact rootScan_some_mem _ _ _ (by simpa using h)
  · intro h
    cases hid : self.id with
    | some cid =>
        exfalso
        simp only [find_content_from_name, hid] at h
        cases htok : ((splitName name)[candidatePos (splitName name) cid]?) with
        | none => simp [htok] at h
        | some tok =>
            simp only [htok] at h
            cases hlk : lookupKey tok self.content_pointer with
            | none => simp [hlk] at h
            | some pos => simp [hlk] at h
    | none => rfl
  · intro e h
    cases hid : self.id with
    | some cid =>
        simp only [find_content_from_name, hid] at h
        cases htok : ((splitName name)[candidatePos (splitName name) cid]?) with
        | none =>
            simp only [htok] at h
            right; left
            simpa using h.symm
        | some tok =>
            simp only [htok] at h
            cases hlk : lookupKey tok self.content_pointer with
            | none =>
                simp only [hlk] at h
                left
                simpa using h.symm
            | some pos => simp [hlk] at h
    | none =>
        simp only [find_content_from_name, hid] at h
        cases hcp : self.content_pointer with
        | nil =>
            simp only [hcp] at h
            right; right
            simpa using h.symm
        | cons q rest => simp [hcp] at h
  · intro cid t ts hid hsplit hnot hlk
    have hcand : candidatePos (t :: ts) cid = 0 := by
      simp [candidatePos, hnot]
    simp only [find_content_from_name, hid, hsplit, hcand]
    simp [hlk]

/-- C1 counterexample: for a Container with identifier H and child_index
key a, resolving the name x_y (identifier absent from the tokens, first
token not a key) raises KeyError; the claim says the result is
UNRESOLVED. -/
theorem C1_counterexample :
    find_content_from_name sampleIdH "x_y" = .error .keyError ∧
    find_content_from_name sampleIdH "x_y" ≠ .ok none := by decide

/-- C1 witness: the corrected clause evaluated at a concrete Container
and name. -/
theorem C1_witness :
    (sampleIdH.id = some "H" ∧ splitName "x_y" = ["x", "y"] ∧
      ("H" ∉ ["x", "y"]) ∧ lookupKey "x" sampleIdH.content_pointer = none) ∧
    find_content_from_name sampleIdH "x_y" = .error .keyError :=
  ⟨⟨rfl, by decide, by decide, by decide⟩,
    (C1_resolution_outcomes sampleIdH "x_y").2.2.2 "H" "x" ["y"] rfl (by decide)
      (by decide) (by decide)⟩

/-- C2 counterexample: in the root Container whose child_index lists key b
before key a, the name a_b_x contains both keys as tokens and a occurs
earlier in the name, yet resolution returns position 1 (the child of key
b, first in child_index insertion order), not position 0 (the child of
key a): the scan is over child_index keys, not over name tokens. -/
theorem C2_counterexample :
    find_content_from_name sampleRootTwo "a_b_x" = .ok (some 1) ∧
    lookupKey "a" sampleRootTwo.content_pointer = some 0 ∧
    lookupKey "b" sampleRootTwo.content_pointer = some 1 := by decide

/-- C2 amended: for a root Container (no identifier) with nonempty
child_index, resolution returns the position stored with the first
child_index key, in child_index insertion order, that occurs among the
underscore tokens of the name, and UNRESOLVED when no key occurs among
the tokens. -/
theorem C2_root_resolution (self : CommonClass V) (name : String)
    (hid : self.id = none) (hne : self.content_pointer ≠ []) :
    find_content_from_name self name =
      .ok ((self.content_pointer.find?
            (fun q => decide (q.1 ∈ splitName name))).map Prod.snd) := by
  simp only [find_content_from_name, hid]
  cases hcp : self.content_pointer with
  | nil => exact absurd hcp hne
  | cons q rest =>
      simp only [hcp]
      rw [rootScan_eq_find]

/-- C2 witness: the amended resolution rule evaluated on a concrete root
Container and name. -/
theorem C2_witness :
    (sampleRootTwo.id = none ∧ sampleRootTwo.content_pointer ≠ []) ∧
    find_content_from_name sampleRootTwo "z_b" = .ok (some 1) :=
  ⟨⟨rfl, by decide⟩,
    (C2_root_resolution sampleRootTwo "z_b" rfl (by decide)).trans (by decide)⟩

/-- C10: reset_states accepts a bare string id and behaves exactly as with
the corresponding one element list, by the isinstance coercion of lines
254 to 255 of common_class.py. -/
theorem C10_reset_accepts_bare_string (self : CommonClass V) (s : String) :
    reset_states self (.str s) = reset_states self (.list [s]) := rfl

/-- Name resolution reads only the identifier and child_index of the
Container, so it is unchanged by updates of the children list. -/
theorem find_content_stable (self : CommonClass V) (cont : List (Element V))
    (name : String) :
    find_content_from_name { self with content := cont } name =
      find_content_from_name self name := rfl

theorem resetLoop_ids_error (ids : List String) :
    ∀ (self : CommonClass V) (i : String), i ∈ ids →
      (∀ p : Nat, find_content_from_name self i ≠ .ok (some p)) →
      ∃ e, resetLoop_ids self ids = .error e := by
  induction ids with
  | nil => intro self i hmem _; exact absurd hmem (by simp)
  | cons j rest ih =>
      intro self i hmem hbad
      cases hfind : find_content_from_name self j with
      | error e => exact ⟨e, by simp [resetLoop_ids, hfind]⟩
      | ok opt =>
          cases opt with
          | none => exact ⟨.typeError, by simp [resetLoop_ids, hfind]⟩
          | some pos =>
              rcases List.mem_cons.mp hmem with rfl | hmem2
              · exact absurd hfind (hbad pos)
              · cases hget : getItem self.content pos with
                | error e => exact ⟨e, by simp [resetLoop_ids, hfind, hget]⟩
                | ok el =>
                    cases hr : el.reset_states with
                    | error e =>
                        exact ⟨e, by simp [resetLoop_ids, hfind, hget, hr]⟩
                    | ok el2 =>
                        obtain ⟨e, he⟩ :=
                          ih { self with content := self.content.set pos el2 } i
                            hmem2
                            (fun p hp => hbad p (by rwa [find_content_stable] at hp))
                        exact ⟨e, by simp [resetLoop_ids, hfind, hget, hr, he]⟩

/-- C7: calling reset_states with an explicit id list containing an id
that does not resolve to a direct child raises an error (TypeError from
indexing the contents with None, or the resolution error itself) instead
of silently doing nothing; no fallback probing of other children
happens. -/
theorem C7_reset_unknown_id_raises (self : CommonClass V) (ids : List String)
    (i : String) (hmem : i ∈ ids)
    (hbad : ∀ p : Nat, find_content_from_name self i ≠ .ok (some p)) :
    ∃ e, reset_states self (.list ids) = .error e := by
  obtain ⟨e, he⟩ := resetLoop_ids_error ids self i hmem hbad
  exact ⟨e, by simp [reset_states, coerceId, he]⟩

/-- C7 witness: a concrete root Container where the requested id resolves
to None, making reset_states raise. -/
theorem C7_witness :
    ("zz" ∈ ["zz"] ∧
      (∀ p : Nat, find_content_from_name sampleRootOwn "zz" ≠ .ok (some p))) ∧
    ∃ e, reset_states sampleRootOwn (.list ["zz"]) = .error e := by
  have hbad : ∀ p : Nat, find_content_from_name sampleRootOwn "zz" ≠ .ok (some p) := by
    intro p hp
    rw [show find_content_from_name sampleRootOwn "zz" = .ok none by decide] at hp
    exact Option.noConfusion (Except.ok.inj hp)
  exact ⟨⟨by decide, hbad⟩,
    C7_reset_unknown_id_raises sampleRootOwn ["zz"] "zz" (by decide) hbad⟩

/-- C4 counterexample: a root Container whose only child lacks
set_parameters and set_states; probing in set_parameters and set_states
hits AttributeError, which is not among the caught exception kinds, so
the call raises instead of skipping the child. -/
theorem C4_counterexample :
    set_parameters sampleRootNoSet [("p", 0)] = .error .attributeError ∧
    set_states sampleRootNoSet [("s", 0)] = .error .attributeError := by decide

/-- C4 amended: capability-missing children are silently skipped in the
get_parameters, get_states, reset_states without ids, and set_timestep
paths, but the exhaustive probing of set_parameters and set_states
catches only KeyError and ValueError: a probed child lacking the set_*
method raises AttributeError, which propagates to the caller. -/
theorem C4_set_probing_capability_missing_raises (self : CommonClass V)
    (p : String) (v : V) (ckey : String) (pos : Nat)
    (rest : List (String × Nat)) (el : Element V)
    (hcp : self.content_pointer = (ckey, pos) :: rest)
    (hresP : find_content_from_name self p = .ok none)
    (hel : self.content[pos]? = some el)
    (hnoP : el.hasSetParameters = false)
    (hnoS : el.hasSetStates = false) :
    set_parameters self [(p, v)] = .error .attributeError ∧
    set_states self [(p, v)] = .error .attributeError := by
  constructor
  · simp only [set_parameters, setP_go, hresP, hcp, probeSetP, getItem, hel]
    simp [Element.set_parameters, hnoP]
  · simp only [set_states, setS_go, hresP, hcp, probeSetS, getItem, hel]
    simp [Element.set_states, hnoS]

/-- C4 witness: the amended behavior evaluated on the concrete Container
of the counterexample. -/
theorem C4_witness :
    (sampleRootNoSet.content_pointer = [("a", 0)] ∧
      find_content_from_name sampleRootNoSet "p" = .ok none ∧
      sampleRootNoSet.content[0]? = some (elemNoSet [("p", 5)] [("s", 7)]) ∧
      (elemNoSet [("p", 5)] [("s", 7)]).hasSetParameters = false ∧
      (elemNoSet [("p", 5)] [("s", 7)]).hasSetStates = false) ∧
    (set_parameters sampleRootNoSet [("p", 0)] = .error .attributeError ∧
      set_states sampleRootNoSet [("p", 0)] = .error .attributeError) :=
  ⟨⟨by decide, by decide, by decide, by decide, by decide⟩,
    C4_set_probing_capability_missing_raises sampleRootNoSet "p" 0 "a" 0 []
      (elemNoSet [("p", 5)] [("s", 7)]) (by decide) (by decide) (by decide)
      (by decide) (by decide)⟩

theorem lookup_mergeFirstSeen (k : String) (q : List (String × V)) :
    ∀ d, lookupKey k (mergeFirstSeen d q) =
      match lookupKey k d with
      | some v => some v
      | none => lookupKey k q := by
  induction q with
  | nil =>
      intro d
      cases hk : lookupKey k d <;> simp [mergeFirstSeen, lookupKey, hk]
  | cons kv rest ih =>
      intro d
      obtain ⟨k0, v0⟩ := kv
      have hfold : mergeFirstSeen d ((k0, v0) :: rest) =
          mergeFirstSeen
            (if (lookupKey k0 d).isSome then d else insertKey k0 v0 d) rest := by
        simp [mergeFirstSeen]
      rw [hfold]
      by_cases h0 : (lookupKey k0 d).isSome
      · rw [if_pos h0, ih d]
        by_cases hk0 : k0 = k
        · subst hk0
          obtain ⟨v, hv⟩ := Option.isSome_iff_exists.mp h0
          simp [hv]
        · cases hk : lookupKey k d <;> simp [hk, lookupKey, hk0]
      · rw [if_neg h0, ih _]
        have h0n : lookupKey k0 d = none := by
          cases hx : lookupKey k0 d
          · rfl
          · exact absurd (by simp [hx]) h0
        by_cases hk0 : k0 = k
        · subst hk0
          simp [h0n, lookupKey_insertKey_self, lookupKey]
        · rw [lookupKey_insertKey_ne _ _ _ _ hk0]
          cases hk : lookupKey k d <;> simp [hk, lookupKey, hk0]

theorem getP_noname_spec (content : List (Element V)) :
    ∀ (cp : List (String × Nat)), (∀ q ∈ cp, q.2 < content.length) →
      ∀ params, ∃ m, getP_noname content cp params = .ok m ∧
        ∀ k, lookupKey k m =
          match lookupKey k params with
          | some v => some v
          | none => firstOwnedParam content k cp := by
  intro cp
  induction cp with
  | nil =>
      intro _ params
      refine ⟨params, rfl, fun k => ?_⟩
      cases hk : lookupKey k params <;> simp [firstOwnedParam, hk]
  | cons q rest ih =>
      intro hvalid params
      obtain ⟨ckey, pos⟩ := q
      have hlt : pos < content.length := hvalid (ckey, pos) (by simp)
      have hel : content[pos]? = some content[pos] := List.getElem?_eq_getElem hlt
      have hrest : ∀ q ∈ rest, q.2 < content.length :=
        fun q hq => hvalid q (by simp [hq])
      cases hcap : content[pos].hasGetParameters with
      | false =>
          obtain ⟨m, hm, hl⟩ := ih hrest params
          refine ⟨m, ?_, fun k => ?_⟩
          · simpa [getP_noname, getItem, hel, Element.get_parameters, hcap] using hm
          · rw [hl k]
            cases hk : lookupKey k params <;>
              simp [hk, firstOwnedParam, hel, hcap]
      | true =>
          obtain ⟨m, hm, hl⟩ := ih hrest (mergeFirstSeen params content[pos].params)
          refine ⟨m, ?_, fun k => ?_⟩
          · simpa [getP_noname, getItem, hel, Element.get_parameters, hcap] using hm
          · rw [hl k, lookup_mergeFirstSeen]
            cases hk : lookupKey k params with
            | some v => simp [hk]
            | none =>
                cases hke : lookupKey k content[pos].params <;>
                  simp [hk, hke, firstOwnedParam, hel, hcap]

/-- C5: with no names, get_parameters succeeds and merges the mappings of
the children first-seen-wins: for every key the returned value is the
one of the first child, in child_index iteration order, that supports
get_parameters and exposes the key; a key taken from an earlier child is
never overwritten by a later one. -/
theorem C5_noname_first_seen_wins (self : CommonClass V)
    (hvalid : validPointers self) :
    ∃ m, get_parameters self none = .ok m ∧
      ∀ k, lookupKey k m = firstOwnedParam self.content k self.content_pointer := by
  obtain ⟨m, hm, hl⟩ :=
    getP_noname_spec self.content self.content_pointer hvalid []
  refine ⟨m, hm, fun k => ?_⟩
  simpa [lookupKey] using hl k

/-- C5 witness: two children both exposing the key x with different
values; the aggregate keeps the value of the earlier child. -/
theorem C5_witness :
    validPointers sampleRootDup ∧
    ∃ m, get_parameters sampleRootDup none = .ok m ∧
      lookupKey "x" m = some 1 := by
  refine ⟨by decide, ?_⟩
  obtain ⟨m, hm, hl⟩ := C5_noname_first_seen_wins sampleRootDup (by decide)
  exact ⟨m, hm, (hl "x").trans (by decide)⟩

theorem probeGetP_spec (content : List (Element V)) (n : String) :
    ∀ (cp : List (String × Nat)), (∀ q ∈ cp, q.2 < content.length) →
      probeGetP content n cp =
        .ok ((firstOwnedParam content n cp).map (fun v => [(n, v)])) := by
  intro cp
  induction cp with
  | nil => intro _; simp [probeGetP, firstOwnedParam]
  | cons q rest ih =>
      intro hvalid
      obtain ⟨ckey, pos⟩ := q
      have hlt : pos < content.length := hvalid (ckey, pos) (by simp)
      have hel : content[pos]? = some content[pos] := List.getElem?_eq_getElem hlt
      have hrest : ∀ q ∈ rest, q.2 < content.length :=
        fun q hq => hvalid q (by simp [hq])
      cases hcap : content[pos].hasGetParameters with
      | false =>
          simpa [probeGetP, getItem, hel, Element.get_parameters, hcap,
            firstOwnedParam] using ih hrest
      | true =>
          cases hlk : lookupKey n content[pos].params with
          | none =>
              simpa [probeGetP, getItem, hel, Element.get_parameters, hcap,
                elemSelect, hlk, firstOwnedParam] using ih hrest
          | some v =>
              simp [probeGetP, getItem, hel, Element.get_parameters, hcap,
                elemSelect, hlk, firstOwnedParam, Except.map]

theorem probeGetS_spec (content : List (Element V)) (n : String) :
    ∀ (cp : List (String × Nat)), (∀ q ∈ cp, q.2 < content.length) →
      probeGetS content n cp =
        .ok ((firstOwnedState content n cp).map (fun v => [(n, v)])) := by
  intro cp
  induction cp with
  | nil => intro _; simp [probeGetS, firstOwnedState]
  | cons q rest ih =>
      intro hvalid
      obtain ⟨ckey, pos⟩ := q
      have hlt : pos < content.length := hvalid (ckey, pos) (by simp)
      have hel : content[pos]? = some content[pos] := List.getElem?_eq_getElem hlt
      have hrest : ∀ q ∈ rest, q.2 < content.length :=
        fun q hq => hvalid q (by simp [hq])
      cases hcap : content[pos].hasGetStates with
      | false =>
          simpa [probeGetS, getItem, hel, Element.get_states, hcap,
            firstOwnedState] using ih hrest
      | true =>
          cases hlk : lookupKey n content[pos].states with
          | none =>
              simpa [probeGetS, getItem, hel, Element.get_states, hcap,
                elemSelect, hlk, firstOwnedState] using ih hrest
          | some v =>
              simp [probeGetS, getItem, hel, Element.get_states, hcap,
                elemSelect, hlk, firstOwnedState, Except.map]

/-- C3: for a requested name that resolves to UNRESOLVED, get_parameters
with the one element list probes the children in child_index order and
returns exactly the singleton mapping of the first child that supports
the capability and owns the name, ignoring capability-missing and
name-not-found children; when no child accepts the name the call raises
(UnboundLocalError from the unbound cont_pars, the hard failure the
claim calls NotFoundError) instead of returning a mapping; get_states
behaves the same on its states. -/
theorem C3_unresolved_probe (self : CommonClass V) (n : String)
    (hvalid : validPointers self)
    (hres : find_content_from_name self n = .ok none) :
    (match firstOwnedParam self.content n self.content_pointer with
     | some v => get_parameters self (some [n]) = .ok [(n, v)]
     | none => get_parameters self (some [n]) = .error .unboundLocalError) ∧
    (match firstOwnedState self.content n self.content_pointer with
     | some v => get_states self (some [n]) = .ok [(n, v)]
     | none => get_states self (some [n]) = .error .unboundLocalError) := by
  constructor
  · have hp := probeGetP_spec self.content n self.content_pointer hvalid
    cases hfo : firstOwnedParam self.content n self.content_pointer with
    | none => simp [get_parameters, getP_go, hres, hp, hfo]
    | some v =>
        simp [get_parameters, getP_go, hres, hp, hfo, dictUnion, insertKey]
  · have hp := probeGetS_spec self.content n self.content_pointer hvalid
    cases hfo : firstOwnedState self.content n self.content_pointer with
    | none => simp [get_states, getS_go, hres, hp, hfo]
    | some v =>
        simp [get_states, getS_go, hres, hp, hfo, dictUnion, insertKey]

/-- C3 witness: on a concrete root Container the unresolved name p is
found by probing for parameters and rejected everywhere for states. -/
theorem C3_witness :
    (validPointers sampleRootOwn ∧
      find_content_from_name sampleRootOwn "p" = .ok none) ∧
    get_parameters sampleRootOwn (some ["p"]) = .ok [("p", 5)] ∧
    get_states sampleRootOwn (some ["p"]) = .error .unboundLocalError :=
  ⟨⟨by decide, by decide⟩,
    (C3_unresolved_probe sampleRootOwn "p" (by decide) (by decide)).1,
    (C3_unresolved_probe sampleRootOwn "p" (by decide) (by decide)).2⟩

theorem elemSelect_single (m : List (String × V)) (n : String)
    (r : List (String × V)) (h : elemSelect m [n] = .ok r) :
    ∃ v, r = [(n, v)] ∧ lookupKey n m = some v := by
  cases hlk : lookupKey n m with
  | none => simp [elemSelect, hlk] at h
  | some v =>
      simp [elemSelect, hlk, Except.map] at h
      exact ⟨v, h.symm, rfl⟩

theorem elemGetP_single_shape (el : Element V) (n : String)
    (r : List (String × V)) (h : el.get_parameters (some [n]) = .ok r) :
    ∃ v, r = [(n, v)] := by
  cases hcap : el.hasGetParameters with
  | false => simp [Element.get_parameters, hcap] at h
  | true =>
      simp only [Element.get_parameters, hcap, if_true] at h
      obtain ⟨v, hv, -⟩ := elemSelect_single el.params n r h
      exact ⟨v, hv⟩

theorem elemGetS_single_shape (el : Element V) (n : String)
    (r : List (String × V)) (h : el.get_states (some [n]) = .ok r) :
    ∃ v, r = [(n, v)] := by
  cases hcap : el.hasGetStates with
  | false => simp [Element.get_states, hcap] at h
  | true =>
      simp only [Element.get_states, hcap, if_true] at h
      obtain ⟨v, hv, -⟩ := elemSelect_single el.states n r h
      exact ⟨v, hv⟩

theorem probeGetP_some_shape (content : List (Element V)) (n : String) :
    ∀ (cp : List (String × Nat)) (res : List (String × V)),
      probeGetP content n cp = .ok (some res) → ∃ v, res = [(n, v)] := by
  intro cp
  induction cp with
  | nil => intro res h; simp [probeGetP] at h
  | cons q rest ih =>
      intro res h
      obtain ⟨ckey, pos⟩ := q
      cases hget : getItem content pos with
      | error e => simp [probeGetP, hget] at h
      | ok el =>
          cases hpar : el.get_parameters (some [n]) with
          | ok r =>
              simp [probeGetP, hget, hpar] at h
              exact h ▸ elemGetP_single_shape el n r hpar
          | error e =>
              cases e <;> simp [probeGetP, hget, hpar] at h <;>
                exact ih res h

theorem probeGetS_some_shape (content : List (Element V)) (n : String) :
    ∀ (cp : List (String × Nat)) (res : List (String × V)),
      probeGetS content n cp = .ok (some res) → ∃ v, res = [(n, v)] := by
  intro cp
  induction cp with
  | nil => intro res h; simp [probeGetS] at h
  | cons q rest ih =>
      intro res h
      obtain ⟨ckey, pos⟩ := q
      cases hget : getItem content pos with
      | error e => simp [probeGetS, hget] at h
      | ok el =>
          cases hpar : el.get_states (some [n]) with
          | ok r =>
              simp [probeGetS, hget, hpar] at h
              exact h ▸ elemGetS_single_shape el n r hpar
          | error e =>
              cases e <;> simp [probeGetS, hget, hpar] at h <;>
                exact ih res h

theorem getP_single_step (self : CommonClass V) (n : String)
    (m : List (String × V)) (h : get_parameters self (some [n]) = .ok m) :
    (∃ v, m = [(n, v)]) ∧
    ∀ (names : List String) (params : List (String × V))
      (contPars : Option (List (String × V))),
      getP_go self (n :: names) params contPars =
        getP_go self names (dictUnion params m) (some m) := by
  unfold get_parameters at h
  cases hres : find_content_from_name self n with
  | error e => simp [getP_go, hres] at h
  | ok opt =>
      cases opt with
      | some pos =>
          simp only [getP_go, hres] at h
          cases hget : getItem self.content pos with
          | error e => simp [hget] at h
          | ok el =>
              simp only [hget] at h
              cases hpar : el.get_parameters (some [n]) with
              | error e => simp [hpar] at h
              | ok res =>
                  simp only [hpar, getP_go] at h
                  obtain ⟨v, hv⟩ := elemGetP_single_shape el n res hpar
                  have hm : m = res := by
                    subst hv
                    simpa [dictUnion, insertKey] using h.symm
                  subst hm
                  refine ⟨⟨v, hv⟩, ?_⟩
                  intro names params contPars
                  simp only [getP_go, hres, hget, hpar]
      | none =>
          simp only [getP_go, hres] at h
          cases hpr : probeGetP self.content n self.content_pointer with
          | error e => simp [hpr] at h
          | ok o =>
              cases o with
              | none => simp [hpr] at h
              | some res =>
                  simp only [hpr, getP_go] at h
                  obtain ⟨v, hv⟩ := probeGetP_some_shape self.content n _ res hpr
                  have hm : m = res := by
                    subst hv
                    simpa [dictUnion, insertKey] using h.symm
                  subst hm
                  refine ⟨⟨v, hv⟩, ?_⟩
                  intro names params contPars
                  simp only [getP_go, hres, hpr]

theorem getS_single_step (self : CommonClass V) (n : String)
    (m : List (String × V)) (h : get_states self (some [n]) = .ok m) :
    (∃ v, m = [(n, v)]) ∧
    ∀ (names : List String) (states : List (String × V))
      (contSt : Option (List (String × V))),
      getS_go self (n :: names) states contSt =
        getS_go self names (dictUnion states m) (some m) := by
  unfold get_states at h
  cases hres : find_content_from_name self n with
  | error e => simp [getS_go, hres] at h
  | ok opt =>
      cases opt with
      | some pos =>
          simp only [getS_go, hres] at h
          cases hget : getItem self.content pos with
          | error e => simp [hget] at h
          | ok el =>
              simp only [hget] at h
              cases hpar : el.get_states (some [n]) with
              | error e => simp [hpar] at h
              | ok res =>
                  simp only [hpar, getS_go] at h
                  obtain ⟨v, hv⟩ := elemGetS_single_shape el n res hpar
                  have hm : m = res := by
                    subst hv
                    simpa [dictUnion, insertKey] using h.symm
                  subst hm
                  refine ⟨⟨v, hv⟩, ?_⟩
                  intro names states contSt
                  simp only [getS_go, hres, hget, hpar]
      | none =>
          simp only [getS_go, hres] at h
          cases hpr : probeGetS self.content n self.content_pointer with
          | error e => simp [hpr] at h
          | ok o =>
              cases o with
              | none => simp [hpr] at h
              | some res =>
                  simp only [hpr, getS_go] at h
                  obtain ⟨v, hv⟩ := probeGetS_some_shape self.content n _ res hpr
                  have hm : m = res := by
                    subst hv
                    simpa [dictUnion, insertKey] using h.symm
                  subst hm
                  refine ⟨⟨v, hv⟩, ?_⟩
                  intro names states contSt
                  simp only [getS_go, hres, hpr]

theorem getP_batch (self : CommonClass V) (names : List String)
    (ms : List (List (String × V)))
    (h : List.Forall₂ (fun n m => get_parameters self (some [n]) = .ok m) names ms) :
    ∀ params contPars,
      getP_go self names params contPars = .ok (ms.foldl dictUnion params) := by
  induction h with
  | nil => intro params contPars; simp [getP_go]
  | @cons n m names2 ms2 hnm _ ih =>
      intro params contPars
      rw [(getP_single_step self n m hnm).2 names2 params contPars,
        ih (dictUnion params m) (some m)]
      simp [List.foldl_cons]

theorem getS_batch (self : CommonClass V) (names : List String)
    (ms : List (List (String × V)))
    (h : List.Forall₂ (fun n m => get_states self (some [n]) = .ok m) names ms) :
    ∀ states contSt,
      getS_go self names states contSt = .ok (ms.foldl dictUnion states) := by
  induction h with
  | nil => intro states contSt; simp [getS_go]
  | @cons n m names2 ms2 hnm _ ih =>
      intro states contSt
      rw [(getS_single_step self n m hnm).2 names2 states contSt,
        ih (dictUnion states m) (some m)]
      simp [List.foldl_cons]

theorem getP_batch_shapes (self : CommonClass V) (names : List String)
    (ms : List (List (String × V)))
    (h : List.Forall₂ (fun n m => get_parameters self (some [n]) = .ok m) names ms) :
    ∀ m ∈ ms, ∃ n v, m = [(n, v)] := by
  induction h with
  | nil => simp
  | @cons n m names2 ms2 hnm _ ih =>
      intro m2 hm2
      rcases List.mem_cons.mp hm2 with rfl | hm3
      · obtain ⟨v, hv⟩ := (getP_single_step self n m2 hnm).1
        exact ⟨n, v, hv⟩
      · exact ih m2 hm3

theorem getS_batch_shapes (self : CommonClass V) (names : List String)
    (ms : List (List (String × V)))
    (h : List.Forall₂ (fun n m => get_states self (some [n]) = .ok m) names ms) :
    ∀ m ∈ ms, ∃ n v, m = [(n, v)] := by
  induction h with
  | nil => simp
  | @cons n m names2 ms2 hnm _ ih =>
      intro m2 hm2
      rcases List.mem_cons.mp hm2 with rfl | hm3
      · obtain ⟨v, hv⟩ := (getS_single_step self n m2 hnm).1
        exact ⟨n, v, hv⟩
      · exact ih m2 hm3

theorem findSomeAppend {A B : Type} (l1 l2 : List A) (f : A → Option B) :
    (l1 ++ l2).findSome? f =
      match l1.findSome? f with
      | some b => some b
      | none => l2.findSome? f := by
  induction l1 with
  | nil => simp
  | cons a l ih => cases hf : f a <;> simp [List.findSome?_cons, hf, ih]

theorem lookup_foldl_dictUnion (k : String) :
    ∀ (ms : List (List (String × V))), (∀ m ∈ ms, ∃ n v, m = [(n, v)]) →
      ∀ acc, lookupKey k (ms.foldl dictUnion acc) =
        match ms.reverse.findSome? (fun m => lookupKey k m) with
        | some v => some v
        | none => lookupKey k acc := by
  intro ms
  induction ms with
  | nil => intro _ acc; simp
  | cons m rest ih =>
      intro hsh acc
      obtain ⟨n, v, rfl⟩ := hsh m (by simp)
      have hstep : dictUnion acc [(n, v)] = insertKey n v acc := rfl
      rw [List.foldl_cons, hstep, ih (fun m hm => hsh m (by simp [hm])) _,
        List.reverse_cons, findSomeAppend]
      cases hr : List.findSome? (fun m => lookupKey k m) rest.reverse with
      | some v2 => simp [hr]
      | none =>
          simp only [hr]
          by_cases hk : n = k
          · subst hk
            simp [List.findSome?, lookupKey, lookupKey_insertKey_self]
          · simp [List.findSome?, lookupKey, hk,
              lookupKey_insertKey_ne _ _ _ _ hk]

/-- C6: when every requested name succeeds individually, get_parameters
and get_states on the whole list return the dictionary union of the
per-name results in request order, and for every key the returned value
is the one of the last requested name carrying it: later requested
names override identically keyed earlier ones, the opposite direction of
the no-names merge. -/
theorem C6_named_merge (self : CommonClass V) (names : List String)
    (msP msS : List (List (String × V)))
    (hP : List.Forall₂ (fun n m => get_parameters self (some [n]) = .ok m) names msP)
    (hS : List.Forall₂ (fun n m => get_states self (some [n]) = .ok m) names msS) :
    (get_parameters self (some names) = .ok (msP.foldl dictUnion []) ∧
      ∀ k, lookupKey k (msP.foldl dictUnion []) =
        msP.reverse.findSome? (fun m => lookupKey k m)) ∧
    (get_states self (some names) = .ok (msS.foldl dictUnion []) ∧
      ∀ k, lookupKey k (msS.foldl dictUnion []) =
        msS.reverse.findSome? (fun m => lookupKey k m)) := by
  refine ⟨⟨?_, ?_⟩, ?_, ?_⟩
  · simpa [get_parameters] using getP_batch self names msP hP [] none
  · intro k
    rw [lookup_foldl_dictUnion k msP (getP_batch_shapes self names msP hP) []]
    cases hfs : List.findSome? (fun m => lookupKey k m) msP.reverse <;>
      simp [hfs, lookupKey]
  · simpa [get_states] using getS_batch self names msS hS [] none
  · intro k
    rw [lookup_foldl_dictUnion k msS (getS_batch_shapes self names msS hS) []]
    cases hfs : List.findSome? (fun m => lookupKey k m) msS.reverse <;>
      simp [hfs, lookupKey]

/-- C6 witness: two names requested on a concrete Container; the batched
results are the unions of the per-name results in request order. -/
theorem C6_witness :
    (get_parameters sampleRootBoth (some ["p"]) = .ok [("p", 5)] ∧
      get_parameters sampleRootBoth (some ["q"]) = .ok [("q", 6)] ∧
      get_states sampleRootBoth (some ["p"]) = .ok [("p", 50)] ∧
      get_states sampleRootBoth (some ["q"]) = .ok [("q", 60)]) ∧
    (get_parameters sampleRootBoth (some ["p", "q"]) = .ok [("p", 5), ("q", 6)] ∧
      get_states sampleRootBoth (some ["p", "q"]) = .ok [("p", 50), ("q", 60)]) :=
  ⟨⟨by decide, by decide, by decide, by decide⟩,
    (C6_named_merge sampleRootBoth ["p", "q"] [[("p", 5)], [("q", 6)]]
        [[("p", 50)], [("q", 60)]]
        (.cons (by decide) (.cons (by decide) .nil))
        (.cons (by decide) (.cons (by decide) .nil))).1.1,
    (C6_named_merge sampleRootBoth ["p", "q"] [[("p", 5)], [("q", 6)]]
        [[("p", 50)], [("q", 60)]]
        (.cons (by decide) (.cons (by decide) .nil))
        (.cons (by decide) (.cons (by decide) .nil))).2.1⟩

theorem listSet_get_self {A : Type} (l : List A) (i : Nat) (a : A)
    (h : i < l.length) : (l.set i a)[i]? = some a := by
  induction l generalizing i with
  | nil => simp at h
  | cons x xs ih =>
      cases i with
      | zero => simp
      | succ j => simpa using ih j (by simpa using h)

theorem listSet_get_ne {A : Type} (l : List A) (i j : Nat) (a : A)
    (h : i ≠ j) : (l.set i a)[j]? = l[j]? := by
  induction l generalizing i j with
  | nil => simp
  | cons x xs ih =>
      cases i with
      | zero =>
          cases j with
          | zero => exact absurd rfl h
          | succ j2 => simp
      | succ i2 =>
          cases j with
          | zero => simp
          | succ j2 => simpa using ih i2 j2 (fun hh => h (by rw [hh]))

theorem listGet_some_lt {A : Type} (l : List A) (i : Nat) (a : A)
    (h : l[i]? = some a) : i < l.length := by
  by_contra hc
  push_neg at hc
  rw [List.getElem?_eq_none hc] at h
  cases h

theorem setTimestepLoop_foldl (d : V) :
    ∀ (cp : List (String × Nat)) (content : List (Element V)),
      (∀ q ∈ cp, q.2 < content.length) →
      setTimestepLoop d content cp =
        .ok (cp.foldl (fun cont q => applyTs d cont q.2) content) := by
  intro cp
  induction cp with
  | nil => intro content _; simp [setTimestepLoop]
  | cons q rest ih =>
      intro content hvalid
      obtain ⟨ckey, pos⟩ := q
      have hlt : pos < content.length := hvalid (ckey, pos) (by simp)
      have hel : content[pos]? = some content[pos] := List.getElem?_eq_getElem hlt
      have hrest : ∀ q ∈ rest, q.2 < content.length :=
        fun q hq => hvalid q (by simp [hq])
      rw [List.foldl_cons]
      cases hcap : content[pos].hasSetTimestep with
      | false =>
          have happ : applyTs d content pos = content := by
            simp [applyTs, hel, hcap]
          rw [happ]
          simp only [setTimestepLoop, getItem, hel, Element.set_timestep, hcap,
            if_false, Bool.false_eq_true]
          exact ih content hrest
      | true =>
          simp only [setTimestepLoop, getItem, hel, Element.set_timestep, hcap,
            if_true]
          have happ : applyTs d content pos =
              content.set pos
                { content[pos] with hasSetTimestep := true, dt := some d } := by
            simp [applyTs, hel, hcap]
          rw [happ]
          exact ih
            (content.set pos
              { content[pos] with hasSetTimestep := true, dt := some d })
            (fun q hq => by
              rw [List.length_set]
              exact hrest q hq)

theorem foldl_applyTs_get (d : V) :
    ∀ (cp : List (String × Nat)) (content : List (Element V)) (j : Nat)
      (el : Element V), content[j]? = some el →
      (cp.foldl (fun cont q => applyTs d cont q.2) content)[j]? =
        some (if j ∈ cp.map Prod.snd ∧ el.hasSetTimestep = true
              then { el with dt := some d } else el) := by
  intro cp
  induction cp with
  | nil => intro content j el hel; simp [hel]
  | cons q rest ih =>
      intro content j el hel
      obtain ⟨ckey, pos⟩ := q
      rw [List.foldl_cons]
      by_cases hj : j = pos
      · subst hj
        cases hcap : el.hasSetTimestep with
        | true =>
            have happ : applyTs d content j =
                content.set j { el with dt := some d } := by
              simp [applyTs, hel, hcap]
            have hel2 : (content.set j { el with dt := some d })[j]? =
                some { el with dt := some d } :=
              listSet_get_self _ _ _ (listGet_some_lt _ _ _ hel)
            rw [happ, ih (content.set j { el with dt := some d }) j
              { el with dt := some d } hel2]
            by_cases hjr : j ∈ rest.map Prod.snd <;> simp [hjr, hcap]
        | false =>
            have happ : applyTs d content j = content := by
              simp [applyTs, hel, hcap]
            rw [happ, ih content j el hel]
            simp [hcap]
      · have happget : (applyTs d content pos)[j]? = content[j]? := by
          cases hpe : content[pos]? with
          | none => simp [applyTs, hpe]
          | some el2 =>
              by_cases hc : el2.hasSetTimestep <;>
                simp [applyTs, hpe, hc,
                  listSet_get_ne _ _ _ _ (fun hh => hj hh.symm)]
        rw [ih (applyTs d content pos) j el (happget.trans hel)]
        have hcond : (j ∈ pos :: List.map Prod.snd rest ∧
            el.hasSetTimestep = true) ↔
            (j ∈ List.map Prod.snd rest ∧ el.hasSetTimestep = true) := by
          constructor
          · rintro ⟨hm, hc⟩
            rcases List.mem_cons.mp hm with rfl | hm2
            · exact absurd rfl hj
            · exact ⟨hm2, hc⟩
          · rintro ⟨hm, hc⟩
            exact ⟨List.mem_cons_of_mem _ hm, hc⟩
        refine congrArg some ?_
        rw [List.map_cons]
        exact if_congr hcond.symm rfl rfl

/-- C8: under the child_index position invariant, set_timestep always
succeeds: it records the timestep on the Container itself, so that
get_timestep afterwards returns it, and forwards the call to every child
pointed to by child_index that supports set_timestep while leaving the
remaining children untouched. -/
theorem C8_set_timestep_total (self : CommonClass V) (d : V)
    (hvalid : validPointers self) :
    ∃ self2, set_timestep self d = .ok self2 ∧ get_timestep self2 = .ok d ∧
      self2.id = self.id ∧ self2.content_pointer = self.content_pointer ∧
      ∀ j el, self.content[j]? = some el →
        self2.content[j]? =
          some (if j ∈ self.content_pointer.map Prod.snd ∧
                    el.hasSetTimestep = true
                then { el with dt := some d } else el) := by
  have hloop := setTimestepLoop_foldl d self.content_pointer self.content hvalid
  refine ⟨CommonClass.mk self.id self.content_pointer
      (self.content_pointer.foldl (fun cont q => applyTs d cont q.2)
        self.content) (some d),
    ?_, rfl, rfl, rfl, ?_⟩
  · simp [set_timestep, hloop, Except.map]
  · intro j el hel
    exact foldl_applyTs_get d self.content_pointer self.content j el hel

/-- C8 witness: a concrete Container with one child supporting
set_timestep and one lacking it. -/
theorem C8_witness :
    validPointers sampleMixedTs ∧
    ∃ self2, set_timestep sampleMixedTs 3 = .ok self2 ∧
      get_timestep self2 = .ok 3 ∧
      self2.id = sampleMixedTs.id ∧
      self2.content_pointer = sampleMixedTs.content_pointer ∧
      ∀ j el, sampleMixedTs.content[j]? = some el →
        self2.content[j]? =
          some (if j ∈ sampleMixedTs.content_pointer.map Prod.snd ∧
                    el.hasSetTimestep = true
                then { el with dt := some 3 } else el) :=
  ⟨by decide, C8_set_timestep_total sampleMixedTs 3 (by decide)⟩

theorem elemSetP_single (el : Element V) (k : String) (v2 : V)
    (hset : el.hasSetParameters = true)
    (hlk : (lookupKey k el.params).isSome = true) :
    el.set_parameters [(k, v2)] =
      .ok { el with params := insertKey k v2 el.params } := by
  obtain ⟨v, hv⟩ := Option.isSome_iff_exists.mp hlk
  simp [Element.set_parameters, hset, setVals, hv, Except.map]

theorem elemSetP_single_missing (el : Element V) (k : String) (v2 : V)
    (hset : el.hasSetParameters = true)
    (hlk : lookupKey k el.params = none) :
    el.set_parameters [(k, v2)] = .error .keyError := by
  simp [Element.set_parameters, hset, setVals, hlk, Except.map]

theorem probeSetP_pre (content : List (Element V)) (k : String) (v2 : V) :
    ∀ (pre : List (String × Nat)),
      (∀ q ∈ pre, ∃ elq, content[q.2]? = some elq ∧
          elq.hasSetParameters = true ∧ lookupKey k elq.params = none) →
      ∀ tail, probeSetP content k v2 (pre ++ tail) = probeSetP content k v2 tail := by
  intro pre
  induction pre with
  | nil => intro _ tail; rfl
  | cons q rest ih =>
      intro hpre tail
      obtain ⟨ckey, pos⟩ := q
      obtain ⟨elq, helq, hset, hnone⟩ := hpre (ckey, pos) (by simp)
      have hkey := elemSetP_single_missing elq k v2 hset hnone
      simp only [List.cons_append, probeSetP, getItem, helq, hkey]
      exact ih (fun q hq => hpre q (by simp [hq])) tail

theorem probeGetP_pre (content : List (Element V)) (n : String) :
    ∀ (pre : List (String × Nat)),
      (∀ q ∈ pre, ∃ elq, content[q.2]? = some elq ∧
          (elq.hasGetParameters = false ∨ lookupKey n elq.params = none)) →
      ∀ tail, probeGetP content n (pre ++ tail) = probeGetP content n tail := by
  intro pre
  induction pre with
  | nil => intro _ tail; rfl
  | cons q rest ih =>
      intro hpre tail
      obtain ⟨ckey, pos⟩ := q
      obtain ⟨elq, helq, hskip⟩ := hpre (ckey, pos) (by simp)
      rcases hskip with hng | hnone
      · simp only [List.cons_append, probeGetP, getItem, helq,
          Element.get_parameters, hng, Bool.false_eq_true, if_false]
        exact ih (fun q hq => hpre q (by simp [hq])) tail
      · cases hcap : elq.hasGetParameters with
        | false =>
            simp only [List.cons_append, probeGetP, getItem, helq,
              Element.get_parameters, hcap, Bool.false_eq_true, if_false]
            exact ih (fun q hq => hpre q (by simp [hq])) tail
        | true =>
            simp only [List.cons_append, probeGetP, getItem, helq,
              Element.get_parameters, hcap, if_true, elemSelect, hnone]
            exact ih (fun q hq => hpre q (by simp [hq])) tail

/-- C9: round trip: when k is owned by a descendant (the owner is found
by resolution, or resolution is unresolved and the probing order reaches
the owner), set_parameters with the single pair followed by
get_parameters with the single name returns exactly the new value. -/
theorem C9_roundtrip (self : CommonClass V) (k : String) (v2 : V)
    (hown : ResolvesToOwner self k) :
    ∃ self2, set_parameters self [(k, v2)] = .ok self2 ∧
      get_parameters self2 (some [k]) = .ok [(k, v2)] := by
  rcases hown with ⟨pos, hres, el, hel, hset, hget, hlk⟩ |
    ⟨hres, pre, ckey, pos, post, hcp, ⟨el, hel, hset, hget, hlk⟩, hpre⟩
  · have hsetP := elemSetP_single el k v2 hset hlk
    refine ⟨CommonClass.mk self.id self.content_pointer
      (self.content.set pos { el with params := insertKey k v2 el.params })
      self.dt, ?_, ?_⟩
    · simp only [set_parameters, setP_go, hres, getItem, hel, hsetP]
    · have hres2 : find_content_from_name
          (CommonClass.mk self.id self.content_pointer
            (self.content.set pos { el with params := insertKey k v2 el.params })
            self.dt) k = .ok (some pos) := hres
      have hel2 : (self.content.set pos
          { el with params := insertKey k v2 el.params })[pos]? =
          some { el with params := insertKey k v2 el.params } :=
        listSet_get_self _ _ _ (listGet_some_lt _ _ _ hel)
      have hgetres : ({ el with params := insertKey k v2 el.params } :
          Element V).get_parameters (some [k]) = .ok [(k, v2)] := by
        simp [Element.get_parameters, hget, elemSelect,
          lookupKey_insertKey_self, Except.map]
      simp only [get_parameters, getP_go, hres2, getItem, hel2, hgetres]
      rfl
  · have hsetP := elemSetP_single el k v2 hset hlk
    have hupd : probeSetP self.content k v2 self.content_pointer =
        .ok (self.content.set pos { el with params := insertKey k v2 el.params }) := by
      rw [hcp, probeSetP_pre self.content k v2 pre hpre ((ckey, pos) :: post)]
      simp only [probeSetP, getItem, hel, hsetP]
    refine ⟨CommonClass.mk self.id self.content_pointer
      (self.content.set pos { el with params := insertKey k v2 el.params })
      self.dt, ?_, ?_⟩
    · simp only [set_parameters, setP_go, hres, hupd]
    · have hres2 : find_content_from_name
          (CommonClass.mk self.id self.content_pointer
            (self.content.set pos { el with params := insertKey k v2 el.params })
            self.dt) k = .ok none := hres
      have hpre2 : ∀ q ∈ pre, ∃ elq,
          (self.content.set pos
            { el with params := insertKey k v2 el.params })[q.2]? = some elq ∧
          (elq.hasGetParameters = false ∨ lookupKey k elq.params = none) := by
        intro q hq
        obtain ⟨elq, helq, hsetq, hnoneq⟩ := hpre q hq
        have hne : pos ≠ q.2 := by
          intro hqe
          rw [← hqe, hel] at helq
          obtain ⟨v, hv⟩ := Option.isSome_iff_exists.mp hlk
          rw [← Option.some.inj helq] at hnoneq
          rw [hv] at hnoneq
          cases hnoneq
        refine ⟨elq, ?_, Or.inr hnoneq⟩
        rw [listSet_get_ne _ _ _ _ hne]
        exact helq
      have hel2 : (self.content.set pos
          { el with params := insertKey k v2 el.params })[pos]? =
          some { el with params := insertKey k v2 el.params } :=
        listSet_get_self _ _ _ (listGet_some_lt _ _ _ hel)
      have hgetres : ({ el with params := insertKey k v2 el.params } :
          Element V).get_parameters (some [k]) = .ok [(k, v2)] := by
        simp [Element.get_parameters, hget, elemSelect,
          lookupKey_insertKey_self, Except.map]
      have hprobe2 : probeGetP
          (self.content.set pos { el with params := insertKey k v2 el.params })
          k self.content_pointer = .ok (some [(k, v2)]) := by
        rw [hcp, probeGetP_pre _ k pre hpre2 ((ckey, pos) :: post)]
        simp only [probeGetP, getItem, hel2, hgetres]
      simp only [get_parameters, getP_go, hres2, hprobe2]
      rfl

/-- C9 witness: the round trip evaluated on a concrete Container with an
identifier resolving the qualified name to the owning child. -/
theorem C9_witness :
    ResolvesToOwner sampleIdH "H_a_p" ∧
    ∃ self2, set_parameters sampleIdH [("H_a_p", 9)] = .ok self2 ∧
      get_parameters self2 (some ["H_a_p"]) = .ok [("H_a_p", 9)] := by
  have hown : ResolvesToOwner sampleIdH "H_a_p" :=
    Or.inl ⟨0, by decide,
      elemFull [("H_a_p", 1)] [("H_a_s", 2)], by decide, by decide, by decide,
      by decide⟩
  exact ⟨hown, C9_roundtrip sampleIdH "H_a_p" 9 hown⟩
